import Mathlib

/-!
Verification of the citation-processing and page-layout core of The-Edison
(`src/utils/python/ai-formatter.py`), shallowly embedded in Lean 4.

Python numeric conventions used throughout the embedding:
real-valued quantities are modelled exactly as rationals (the source uses
sympy to solve the margin equation exactly); Python `int(x)` truncates
toward zero (`ratTrunc`), Python `//` on integers is floor division
(`Int.fdiv`), and `math.ceil`-style rounding is `ratCeil`.
-/

/-- Floor of a rational as an integer, computable (`⌊q⌋`). -/
def ratFloor (q : ℚ) : ℤ := Int.fdiv q.num q.den

/-- Ceiling of a rational as an integer, computable (`np.ceil`). -/
def ratCeil (q : ℚ) : ℤ := -(ratFloor (-q))

/-- Python `int(q)`: truncation toward zero. -/
def ratTrunc (q : ℚ) : ℤ := Int.tdiv q.num q.den

/-- Python `str(v)` of a value that is either a string or `None`. -/
def pyStr : Option String → String
  | some s => s
  | none => "None"

/-- Python truthiness of a string-or-`None` value: `None` and `""` are falsy. -/
def pyTruthy : Option String → Bool
  | none => false
  | some s => s ≠ ""

/-- Python whitespace class `\s` (ASCII): space, tab, newline, CR, FF, VT. -/
def isPyWs (c : Char) : Bool :=
  c = ' ' || c = '\t' || c = '\n' || c = '\r' || c = '\x0b' || c = '\x0c'

/-- Uppercase ASCII letter (`[A-Z]`). -/
def isUpperAZ (c : Char) : Bool := 'A' ≤ c && c ≤ 'Z'

/-- Lowercase ASCII letter (`[a-z]`). -/
def isLowerAZ (c : Char) : Bool := 'a' ≤ c && c ≤ 'z'

/-- ASCII digit (`\d`). -/
def isDigit09 (c : Char) : Bool := '0' ≤ c && c ≤ '9'

/-- Drop leading characters of a char list that lie in the given strip set. -/
def dropWhileIn (strip : Char → Bool) : List Char → List Char
  | [] => []
  | c :: cs => if strip c then dropWhileIn strip cs else c :: cs

/-- Python `s.strip()`: strip whitespace from both ends. -/
def pyStrip (s : String) : String :=
  String.mk ((dropWhileIn isPyWs ((dropWhileIn isPyWs s.data).reverse)).reverse)

/-- Python `s.strip('., ')`: strip periods, commas and spaces from both ends. -/
def pyStripPunct (s : String) : String :=
  let strip : Char → Bool := fun c => c = '.' || c = ',' || c = ' '
  String.mk ((dropWhileIn strip ((dropWhileIn strip s.data).reverse)).reverse)

/-- Worker for Python `s.split()`: split on whitespace runs, discarding empties. -/
def splitWsGo : List Char → List Char → List String
  | [], acc => if acc.isEmpty then [] else [String.mk acc]
  | c :: cs, acc =>
    if isPyWs c then
      if acc.isEmpty then splitWsGo cs [] else String.mk acc :: splitWsGo cs []
    else splitWsGo cs (acc ++ [c])

/-- Python `s.split()` with no argument: whitespace-delimited words, no empty words. -/
def pySplitWs (s : String) : List String := splitWsGo s.data []

/-- Python `' '.join(words)`. -/
def spaceJoin : List String → String
  | [] => ""
  | [w] => w
  | w :: ws => w ++ " " ++ spaceJoin ws

/-- The three known citation styles, in the catalog insertion order mla, apa, chicago. -/
inductive CitStyle where
  | mla
  | apa
  | chicago
deriving DecidableEq, Repr

/-- Per-style match counters, zero-initialized over exactly the three styles. -/
structure StyleCounts where
  mla : ℕ
  apa : ℕ
  chicago : ℕ
deriving DecidableEq, Repr

/-- Look up a counter. -/
def StyleCounts.get (c : StyleCounts) : CitStyle → ℕ
  | .mla => c.mla
  | .apa => c.apa
  | .chicago => c.chicago

/-- Python `max(style_counts, key=style_counts.get)`: scan keys in insertion
order mla, apa, chicago, replacing the running best only on a strictly
greater count, so the first style attaining the maximum wins. -/
def maxStyleKey (c : StyleCounts) : CitStyle :=
  let b1 := CitStyle.mla
  let b2 := if c.get CitStyle.apa > c.get b1 then CitStyle.apa else b1
  let b3 := if c.get CitStyle.chicago > c.get b2 then CitStyle.chicago else b2
  b3

/-- The style-voting step at the end of `CitationProcessor.extract_citations`:
take the arg-max key, then replace it by `None` if its count is zero. -/
def dominantStyle (c : StyleCounts) : Option CitStyle :=
  let d := maxStyleKey c
  if c.get d = 0 then none else some d

/-- Priority rank used to state the tie-break rule: MLA before APA before CHICAGO. -/
def styleRank : CitStyle → ℕ
  | .mla => 0
  | .apa => 1
  | .chicago => 2

/-- Maximum of the three counters. -/
def maxCount (c : StyleCounts) : ℕ := max c.mla (max c.apa c.chicago)

/-- State of `FormatOptimizer`: page size, margins (all in points, modelled
exactly as rationals) and the derived content metrics. -/
structure FormatOptimizer where
  page_width : ℚ
  page_height : ℚ
  margin_top : ℚ
  margin_right : ℚ
  margin_bottom : ℚ
  margin_left : ℚ
  content_width : ℚ
  content_height : ℚ
  default_font_size : ℚ
  default_line_height : ℚ
  chars_per_line : ℤ
  lines_per_page : ℤ
deriving DecidableEq, Repr

/-- `FormatOptimizer._calculate_content_area`: recompute the derived metrics
from the current page size and margins. -/
def calcContentArea (st : FormatOptimizer) : FormatOptimizer :=
  let cw := st.page_width - (st.margin_left + st.margin_right)
  let ch := st.page_height - (st.margin_top + st.margin_bottom)
  { st with
    content_width := cw
    content_height := ch
    default_font_size := 12
    default_line_height := 12 * 2
    chars_per_line := ratTrunc (cw / (12 * (0.6 : ℚ)))
    lines_per_page := ratTrunc (ch / (12 * 2)) }

/-- `FormatOptimizer.__init__`: US Letter page, one-inch margins, derived metrics. -/
def initFormatOptimizer : FormatOptimizer :=
  calcContentArea
    { page_width := 612
      page_height := 792
      margin_top := 72
      margin_right := 72
      margin_bottom := 72
      margin_left := 72
      content_width := 0
      content_height := 0
      default_font_size := 12
      default_line_height := 24
      chars_per_line := 0
      lines_per_page := 0 }

/-- Unit conversion of `FormatOptimizer.set_margins`: inch ×72, mm ×2.83465,
pixel ÷1.33333, point unchanged. -/
def unitToPoint (unit : String) (x : ℚ) : ℚ :=
  if unit = "inch" then x * 72
  else if unit = "mm" then x * (2.83465 : ℚ)
  else if unit = "pixel" then x / (1.33333 : ℚ)
  else x

/-- `FormatOptimizer.set_margins`: omitted sides keep their previous value;
every call recomputes the content area. -/
def set_margins (st : FormatOptimizer)
    (top right bottom left : Option ℚ) (unit : String) : FormatOptimizer :=
  calcContentArea
    { st with
      margin_top := match top with | some v => unitToPoint unit v | none => st.margin_top
      margin_right := match right with | some v => unitToPoint unit v | none => st.margin_right
      margin_bottom := match bottom with | some v => unitToPoint unit v | none => st.margin_bottom
      margin_left := match left with | some v => unitToPoint unit v | none => st.margin_left }

/-- `FormatOptimizer.set_page_size`: convert to points, store, recompute metrics. -/
def set_page_size (st : FormatOptimizer) (width height : ℚ) (unit : String) : FormatOptimizer :=
  let w := if unit = "inch" then width * 72
    else if unit = "mm" then width * (2.83465 : ℚ)
    else if unit = "pixel" then width / (1.33333 : ℚ)
    else width
  let h := if unit = "inch" then height * 72
    else if unit = "mm" then height * (2.83465 : ℚ)
    else if unit = "pixel" then height / (1.33333 : ℚ)
    else height
  calcContentArea { st with page_width := w, page_height := h }

/-- `FormatOptimizer.calculate_optimal_margins`: solve
`page_width - 2*x = target_line_length * (font_size * 0.6)` for `x` exactly
and install `left = right = x` via `set_margins` (which recomputes metrics).
The source performs no sign check on the solution. -/
def calculate_optimal_margins (st : FormatOptimizer) (target_line_length : ℚ) :
    FormatOptimizer :=
  let avg_char_width := st.default_font_size * (0.6 : ℚ)
  let content_width_needed := target_line_length * avg_char_width
  let solution := (st.page_width - content_width_needed) / 2
  set_margins st none (some solution) none (some solution) "point"

/-- Loop body of `FormatOptimizer.calculate_line_breaks`: greedy word wrap.
`cur` is `current_line`, `curLen` is `current_length`, `lines` the emitted lines. -/
def wrapGo (cpl : ℤ) : List String → List String → ℤ → List String → List String
  | [], cur, _, lines => if cur.isEmpty then lines else lines ++ [spaceJoin cur]
  | w :: ws, cur, curLen, lines =>
    if curLen + (w.length : ℤ) + (if curLen > 0 then 1 else 0) > cpl then
      wrapGo cpl ws [w] (w.length : ℤ) (lines ++ [spaceJoin cur])
    else
      wrapGo cpl ws (cur ++ [w]) (curLen + (w.length : ℤ) + (if curLen > 0 then 1 else 0)) lines

/-- `FormatOptimizer.calculate_line_breaks`: characters per line are derived
from the stored content width and the given font size, then the greedy wrap
loop runs over `text.split()`. -/
def calculate_line_breaks (st : FormatOptimizer) (text : String) (font_size : ℚ) :
    List String :=
  let avg_char_width := font_size * (0.6 : ℚ)
  let chars_per_line := ratTrunc (st.content_width / avg_char_width)
  wrapGo chars_per_line (pySplitWs text) [] 0 []

/-- Modelled from the claim wording for the line breaker: greedily accumulate
words into chunks while `currentLength + len(word) + (1 if line non-empty else 0)`
stays within `charsPerLine`, otherwise flush and start a new chunk with that
word; the wrapped lines are the space-joins of these chunks. -/
def greedyChunksGo (cpl : ℤ) : List String → List String → ℤ → List (List String)
  | [], cur, _ => if cur.isEmpty then [] else [cur]
  | w :: ws, cur, curLen =>
    if curLen + (w.length : ℤ) + (if curLen > 0 then 1 else 0) > cpl then
      cur :: greedyChunksGo cpl ws [w] (w.length : ℤ)
    else
      greedyChunksGo cpl ws (cur ++ [w]) (curLen + (w.length : ℤ) + (if curLen > 0 then 1 else 0))

/-- The chunk decomposition of the greedy wrap, starting from an empty line. -/
def greedyChunks (cpl : ℤ) (ws : List String) : List (List String) :=
  greedyChunksGo cpl ws [] 0

/-- `FormatOptimizer.calculate_pagination`: `int(np.ceil(line_count / lines_per_page))`. -/
def calculate_pagination (st : FormatOptimizer) (line_count : ℕ) : ℤ :=
  ratCeil ((line_count : ℚ) / (st.lines_per_page : ℚ))

/-- A heading placement record `{position, page}` as produced by
`FormatOptimizer.optimize_heading_placement`. -/
structure HeadingPlacement where
  position : ℤ
  page : ℤ
deriving DecidableEq, Repr

/-- The page-break line numbers `[i * lines_per_page for i in range(1, pagination)]`. -/
def pageBreaksOf (st : FormatOptimizer) (text_length : ℕ) : List ℤ :=
  ((List.range (calculate_pagination st text_length).toNat).drop 1).map
    (fun (i : ℕ) => (i : ℤ) * st.lines_per_page)

/-- Adjustment of one heading: Python scans `page_breaks` in order and on the
first break with `0 < heading_pos - break_pos < 3` moves the heading to
`break_pos - 1` and recomputes its page; otherwise the page is
`heading_pos // lines_per_page + 1` unadjusted. -/
def placeHeading (lpp : ℤ) (pageBreaks : List ℤ) (h : ℤ) : HeadingPlacement :=
  match pageBreaks.find? (fun b => decide (b < h) && decide (h - b < 3)) with
  | some b => { position := b - 1, page := Int.fdiv (b - 1) lpp + 1 }
  | none => { position := h, page := Int.fdiv h lpp + 1 }

/-- `FormatOptimizer.optimize_heading_placement`. -/
def optimize_heading_placement (st : FormatOptimizer)
    (headings_positions : List ℤ) (text_length : ℕ) : List HeadingPlacement :=
  headings_positions.map (placeHeading st.lines_per_page (pageBreaksOf st text_length))

/-- Modelled from the claim wording for heading placement: a heading strictly
between 0 and 3 lines after a page-break line is moved to one line before that
break with its page recomputed from the adjusted position; otherwise its page
is `position ÷ linesPerPage + 1`, unadjusted. -/
def headingClaimSpec (lpp : ℤ) (pageBreaks : List ℤ) (h : ℤ) : HeadingPlacement :=
  match pageBreaks.find? (fun b => decide (0 < h - b) && decide (h - b < 3)) with
  | some b => { position := b - 1, page := Int.fdiv (b - 1) lpp + 1 }
  | none => { position := h, page := Int.fdiv h lpp + 1 }

/-- Abstract syntax of the regular expressions used by the source, with
Python `re` semantics: greedy and lazy repetition, capturing groups
(0-based slots for groups 1..n), lookahead, the single-character negative
lookbehind `(?<!\d)`, and the anchors `^` (string start, no MULTILINE) and
`$` (string end or just before a final newline). -/
inductive RE where
  | eps : RE
  | ch (c : Char) : RE
  | cls (p : Char → Bool) : RE
  | cat (a b : RE) : RE
  | alt (a b : RE) : RE
  | star (greedy : Bool) (a : RE) : RE
  | opt (greedy : Bool) (a : RE) : RE
  | grp (idx : ℕ) (a : RE) : RE
  | lookAhead (positive : Bool) (a : RE) : RE
  | prevNotDigit : RE
  | bos : RE
  | eos : RE

/-- Concatenation of a list of regexes. -/
def rcat (l : List RE) : RE := l.foldr RE.cat RE.eps

/-- Literal string as a regex. -/
def rlit (s : String) : RE := rcat (s.data.map RE.ch)

/-- `a+` is `a` followed by `a*`, with the same greediness. -/
def rplus (greedy : Bool) (a : RE) : RE := RE.cat a (RE.star greedy a)

/-- Capture slots: slot `i` holds the half-open span of group `i+1`, if set. -/
abbrev Caps := List (Option (ℕ × ℕ))

/-- Record the span of one capture group. -/
def setCap (caps : Caps) (i : ℕ) (v : ℕ × ℕ) : Caps := caps.set i (some v)

/-- Backtracking matcher in continuation-passing style. The continuation
receives the position after the current subexpression and the captures so
far; the first success in Python backtracking priority order wins. Fuel
bounds the nesting depth of the search and is chosen large enough for all
concrete runs in this development. -/
def reMat (s : List Char) : ℕ → RE → ℕ → Caps →
    (ℕ → Caps → Option (ℕ × Caps)) → Option (ℕ × Caps)
  | 0, _, _, _, _ => none
  | _ + 1, RE.eps, pos, caps, k => k pos caps
  | _ + 1, RE.ch c, pos, caps, k =>
    match s.get? pos with
    | some c2 => if c2 = c then k (pos + 1) caps else none
    | none => none
  | _ + 1, RE.cls p, pos, caps, k =>
    match s.get? pos with
    | some c2 => if p c2 then k (pos + 1) caps else none
    | none => none
  | fuel + 1, RE.cat a b, pos, caps, k =>
    reMat s fuel a pos caps (fun p2 c2 => reMat s fuel b p2 c2 k)
  | fuel + 1, RE.alt a b, pos, caps, k =>
    match reMat s fuel a pos caps k with
    | some r => some r
    | none => reMat s fuel b pos caps k
  | fuel + 1, RE.star g a, pos, caps, k =>
    let viaBody := fun (_ : Unit) => reMat s fuel a pos caps (fun p2 c2 =>
      if p2 = pos then none else reMat s fuel (RE.star g a) p2 c2 k)
    if g then
      match viaBody () with
      | some r => some r
      | none => k pos caps
    else
      match k pos caps with
      | some r => some r
      | none => viaBody ()
  | fuel + 1, RE.opt g a, pos, caps, k =>
    if g then
      match reMat s fuel a pos caps k with
      | some r => some r
      | none => k pos caps
    else
      match k pos caps with
      | some r => some r
      | none => reMat s fuel a pos caps k
  | fuel + 1, RE.grp i a, pos, caps, k =>
    reMat s fuel a pos caps (fun p2 c2 => k p2 (setCap c2 i (pos, p2)))
  | fuel + 1, RE.lookAhead positive a, pos, caps, k =>
    let sub := reMat s fuel a pos caps (fun p2 c2 => some (p2, c2))
    if positive then
      match sub with
      | some _ => k pos caps
      | none => none
    else
      match sub with
      | some _ => none
      | none => k pos caps
  | _ + 1, RE.prevNotDigit, pos, caps, k =>
    match pos with
    | 0 => k 0 caps
    | p + 1 =>
      match s.get? p with
      | some c2 => if isDigit09 c2 then none else k pos caps
      | none => k pos caps
  | _ + 1, RE.bos, pos, caps, k =>
    if pos = 0 then k pos caps else none
  | _ + 1, RE.eos, pos, caps, k =>
    if pos = s.length then k pos caps
    else if pos + 1 = s.length && s.get? pos = some '\n' then k pos caps
    else none

/-- A regex match: start and end offset plus the capture slots. -/
structure PyMatch where
  mstart : ℕ
  mstop : ℕ
  caps : Caps
deriving DecidableEq, Repr

/-- Substring of `s` over the half-open index range `[a, b)`. -/
def strSlice (s : String) (a b : ℕ) : String :=
  String.mk ((s.data.drop a).take (b - a))

/-- The string of capture group `i` (1-based) of a match over `s`, or `None`. -/
def pyGrp (s : String) (m : PyMatch) (i : ℕ) : Option String :=
  match m.caps.get? (i - 1) with
  | some (some ab) => some (strSlice s ab.1 ab.2)
  | _ => none

/-- Python `match.groups()`: the strings of groups `1..n` in declaration order. -/
def pyGroups (s : String) (m : PyMatch) : List (Option String) :=
  m.caps.map (fun o => o.map (fun ab => strSlice s ab.1 ab.2))

/-- Fuel bound for one anchored match attempt over `s`. -/
def matFuel (s : List Char) : ℕ := (s.length + 4) * 128 + 128

/-- Try to match regex `r` with `n` capture groups at position `pos` of `s`. -/
def matchAt (s : List Char) (r : RE) (n : ℕ) (pos : ℕ) : Option PyMatch :=
  match reMat s (matFuel s) r pos (List.replicate n none) (fun p c => some (p, c)) with
  | some (e, c) => some { mstart := pos, mstop := e, caps := c }
  | none => none

/-- Scanner of `re.finditer`: try successive start positions left to right;
after a match, resume at its end (or one past it when it was empty). -/
def scanAll (s : List Char) (r : RE) (n : ℕ) : ℕ → ℕ → List PyMatch
  | 0, _ => []
  | fuel + 1, pos =>
    if pos ≤ s.length then
      match matchAt s r n pos with
      | some m => m :: scanAll s r n fuel (if pos < m.mstop then m.mstop else pos + 1)
      | none => scanAll s r n fuel (pos + 1)
    else []

/-- `re.finditer(r, s)`: all non-overlapping matches, leftmost first. -/
def reFinditer (r : RE) (n : ℕ) (s : String) : List PyMatch :=
  scanAll s.data r n (s.data.length + 1) 0

/-- `re.search(r, s)`: the first match, if any. -/
def reSearch (r : RE) (n : ℕ) (s : String) : Option PyMatch :=
  (reFinditer r n s).head?

/-- `re.match(r, s)`: a match anchored at the start of `s`. -/
def reMatchStart (r : RE) (n : ℕ) (s : String) : Option PyMatch :=
  matchAt s.data r n 0

/-- Cut `s` at the spans of the given matches, keeping the pieces between. -/
def splitByMatches (s : String) : List PyMatch → ℕ → List String
  | [], i => [strSlice s i s.data.length]
  | m :: ms, i => strSlice s i m.mstart :: splitByMatches s ms m.mstop

/-- `re.split(r, s)` for a pattern without capture groups. -/
def reSplit (r : RE) (n : ℕ) (s : String) : List String :=
  splitByMatches s (reFinditer r n s) 0

/-- Whether the first list is an initial segment of the second. -/
def listStartsWith : List Char → List Char → Bool
  | [], _ => true
  | _ :: _, [] => false
  | a :: as, b :: bs => a = b && listStartsWith as bs

/-- Python `s.split(sep)` for a non-empty separator: scan left to right,
cutting at each non-overlapping occurrence of `sep`. -/
def splitOnSepGo (sep : List Char) : ℕ → List Char → List Char → List (List Char)
  | 0, acc, rest => [acc ++ rest]
  | fuel + 1, acc, rest =>
    if listStartsWith sep rest then
      acc :: splitOnSepGo sep fuel [] (rest.drop sep.length)
    else
      match rest with
      | [] => [acc]
      | c :: cs => splitOnSepGo sep fuel (acc ++ [c]) cs

/-- Python `text.split('\n\n')`. -/
def splitOnBlank (s : String) : List String :=
  (splitOnSepGo ['\n', '\n'] (s.data.length + 1) [] s.data).map String.mk

/-- Python `sep.join(parts)` for `'\n\n'.join`. -/
def joinWithBlank : List String → String
  | [] => ""
  | [p] => p
  | p :: ps => p ++ "\n\n" ++ joinWithBlank ps

/-- Author sub-pattern `[A-Z][a-z]+(?:[-\s][A-Z][a-z]+)*` shared by the catalog. -/
def reAuthorName : RE :=
  rcat [RE.cls isUpperAZ, rplus true (RE.cls isLowerAZ),
    RE.star true (rcat [RE.cls (fun c => c = '-' || isPyWs c), RE.cls isUpperAZ,
      rplus true (RE.cls isLowerAZ)])]

/-- Optional co-author sub-pattern `(?:\s+and\s+[A-Z][a-z]+)?`. -/
def reAndAuthor : RE :=
  RE.opt true (rcat [rplus true (RE.cls isPyWs), rlit "and", rplus true (RE.cls isPyWs),
    RE.cls isUpperAZ, rplus true (RE.cls isLowerAZ)])

/-- Optional `(?:\s+et\s+al\.?)?` sub-pattern. -/
def reEtAl : RE :=
  RE.opt true (rcat [rplus true (RE.cls isPyWs), rlit "et", rplus true (RE.cls isPyWs),
    rlit "al", RE.opt true (RE.ch '.')])

/-- Exactly four digits, `\d{4}`. -/
def reYear4 : RE :=
  rcat [RE.cls isDigit09, RE.cls isDigit09, RE.cls isDigit09, RE.cls isDigit09]

/-- Optional page-range tail `(?:-\d+)?`. -/
def reDashPages : RE :=
  RE.opt true (rcat [RE.ch '-', rplus true (RE.cls isDigit09)])

/-- Catalog pattern `mla / in_text`:
`\(([A-Z][a-z]+(?:[-\s][A-Z][a-z]+)*)(?:\s+and\s+[A-Z][a-z]+)?(?:\s+et\s+al\.?)?\s+(\d+)(?:-\d+)?\)`. -/
def mla_in_text : RE :=
  rcat [RE.ch '(', RE.grp 0 reAuthorName, reAndAuthor, reEtAl,
    rplus true (RE.cls isPyWs), RE.grp 1 (rplus true (RE.cls isDigit09)),
    reDashPages, RE.ch ')']

/-- Catalog pattern `mla / parenthetical`: the source repeats the very same
pattern string as `mla / in_text`. -/
def mla_parenthetical : RE :=
  rcat [RE.ch '(', RE.grp 0 reAuthorName, reAndAuthor, reEtAl,
    rplus true (RE.cls isPyWs), RE.grp 1 (rplus true (RE.cls isDigit09)),
    reDashPages, RE.ch ')']

/-- Catalog pattern `apa / in_text`:
`([A-Z][a-z]+(?:[-\s][A-Z][a-z]+)*)(?:\s+and\s+[A-Z][a-z]+)?(?:\s+et\s+al\.?)?\s+\((\d{4})(?:,\s+p\.?\s+\d+(?:-\d+)?)?\)`. -/
def apa_in_text : RE :=
  rcat [RE.grp 0 reAuthorName, reAndAuthor, reEtAl, rplus true (RE.cls isPyWs),
    RE.ch '(', RE.grp 1 reYear4,
    RE.opt true (rcat [RE.ch ',', rplus true (RE.cls isPyWs), RE.ch 'p',
      RE.opt true (RE.ch '.'), rplus true (RE.cls isPyWs),
      rplus true (RE.cls isDigit09), reDashPages]),
    RE.ch ')']

/-- Catalog pattern `apa / parenthetical`:
`\(([A-Z][a-z]+(?:[-\s][A-Z][a-z]+)*)(?:\s+and\s+[A-Z][a-z]+)?(?:\s+et\s+al\.?)?,\s+(\d{4})(?:,\s+p\.?\s+\d+(?:-\d+)?)?\)`. -/
def apa_parenthetical : RE :=
  rcat [RE.ch '(', RE.grp 0 reAuthorName, reAndAuthor, reEtAl,
    RE.ch ',', rplus true (RE.cls isPyWs), RE.grp 1 reYear4,
    RE.opt true (rcat [RE.ch ',', rplus true (RE.cls isPyWs), RE.ch 'p',
      RE.opt true (RE.ch '.'), rplus true (RE.cls isPyWs),
      rplus true (RE.cls isDigit09), reDashPages]),
    RE.ch ')']

/-- Catalog pattern `chicago / in_text`:
`([A-Z][a-z]+(?:[-\s][A-Z][a-z]+)*)(?:\s+and\s+[A-Z][a-z]+)?(?:\s+et\s+al\.?)?\s+\((\d{4})(?:,\s+\d+(?:-\d+)?)?\)`. -/
def chicago_in_text : RE :=
  rcat [RE.grp 0 reAuthorName, reAndAuthor, reEtAl, rplus true (RE.cls isPyWs),
    RE.ch '(', RE.grp 1 reYear4,
    RE.opt true (rcat [RE.ch ',', rplus true (RE.cls isPyWs),
      rplus true (RE.cls isDigit09), reDashPages]),
    RE.ch ')']

/-- Catalog pattern `chicago / footnote`:
`(?<!\d)(\d+)\.?\s+([A-Z][a-z]+(?:[-\s][A-Z][a-z]+)*),\s+[^,]+,\s+(\d+)(?:-\d+)?`. -/
def chicago_footnote : RE :=
  rcat [RE.prevNotDigit, RE.grp 0 (rplus true (RE.cls isDigit09)),
    RE.opt true (RE.ch '.'), rplus true (RE.cls isPyWs),
    RE.grp 1 reAuthorName, RE.ch ',', rplus true (RE.cls isPyWs),
    rplus true (RE.cls (fun c => c ≠ ',')), RE.ch ',', rplus true (RE.cls isPyWs),
    RE.grp 2 (rplus true (RE.cls isDigit09)), reDashPages]

/-- A citation record as built by `CitationProcessor.extract_citations`:
the dict `{'text', 'type', 'sentence', 'groups'}` - there is no position key. -/
structure PyCitation where
  text : String
  type : String
  sentence : String
  groups : List (Option String)
deriving DecidableEq, Repr

/-- Build the citation dict for one match of a pattern within a sentence:
`text` is `match.group(0)`, `groups` is `match.groups()` in declaration order. -/
def mkCitation (sentence : String) (typeName : String) (m : PyMatch) : PyCitation :=
  { text := strSlice sentence m.mstart m.mstop
    type := typeName
    sentence := sentence
    groups := pyGroups sentence m }

/-- All citations one pattern contributes on one sentence. -/
def citationsOfPattern (r : RE) (n : ℕ) (typeName : String) (sentence : String) :
    List PyCitation :=
  (reFinditer r n sentence).map (mkCitation sentence typeName)

/-- The mla citations of one sentence: `in_text` matches then `parenthetical`
matches, following the catalog iteration order. -/
def sentCitsMla (sentence : String) : List PyCitation :=
  citationsOfPattern mla_in_text 2 "in_text" sentence ++
    citationsOfPattern mla_parenthetical 2 "parenthetical" sentence

/-- The apa citations of one sentence. -/
def sentCitsApa (sentence : String) : List PyCitation :=
  citationsOfPattern apa_in_text 2 "in_text" sentence ++
    citationsOfPattern apa_parenthetical 2 "parenthetical" sentence

/-- The chicago citations of one sentence. -/
def sentCitsChicago (sentence : String) : List PyCitation :=
  citationsOfPattern chicago_in_text 2 "in_text" sentence ++
    citationsOfPattern chicago_footnote 3 "footnote" sentence

/-- Concatenate the per-sentence citation lists over all sentences, in order. -/
def collectCits (f : String → List PyCitation) : List String → List PyCitation
  | [] => []
  | s :: ss => f s ++ collectCits f ss

/-- Result dict of `CitationProcessor.extract_citations`. -/
structure ExtractResult where
  dominant_style : Option CitStyle
  citMla : List PyCitation
  citApa : List PyCitation
  citChicago : List PyCitation
  style_counts : StyleCounts
deriving Repr

/-- `CitationProcessor.extract_citations`, parameterized by the sentence
segmenter (`nltk.sent_tokenize`, an external collaborator): per sentence,
per style, per kind, collect every pattern match as a citation record and
count one increment per match; finally vote for the dominant style. -/
def extract_citations (sentTokenize : String → List String) (text : String) :
    ExtractResult :=
  let sentences := sentTokenize text
  let mlaCits := collectCits sentCitsMla sentences
  let apaCits := collectCits sentCitsApa sentences
  let chicagoCits := collectCits sentCitsChicago sentences
  let counts : StyleCounts :=
    { mla := mlaCits.length, apa := apaCits.length, chicago := chicagoCits.length }
  { dominant_style := dominantStyle counts
    citMla := mlaCits
    citApa := apaCits
    citChicago := chicagoCits
    style_counts := counts }

/-- Python runtime errors reachable in `CitationProcessor.convert_citation`:
reading a local variable that no branch assigned, and indexing `groups`
beyond its length. -/
inductive PyErr where
  | unboundLocal
  | indexError
deriving DecidableEq, Repr

/-- Secondary page sub-pattern `p\.?\s+(\d+(?:-\d+)?)` of the apa extraction. -/
def pagePattern : RE :=
  rcat [RE.ch 'p', RE.opt true (RE.ch '.'), rplus true (RE.cls isPyWs),
    RE.grp 0 (rcat [rplus true (RE.cls isDigit09), reDashPages])]

/-- Number sub-pattern `(\d+(?:-\d+)?)` of the chicago in-text extraction. -/
def numberPattern : RE :=
  RE.grp 0 (rcat [rplus true (RE.cls isDigit09), reDashPages])

/-- `CitationProcessor.convert_citation`. The extraction phase binds the
locals `(author, year, page)` only when `from_style` is one of the three
known styles; the rendering phase reads them, so an unknown `from_style`
leads to an unbound-local error in the mla/apa/chicago-in-text target
branches, while an unknown `to_style` falls through every branch and
returns `citation['text']` unchanged. -/
def convert_citation (c : PyCitation) (from_style to_style : String) :
    Except PyErr String :=
  let ext : Except PyErr (Option (Option String × Option String × Option String)) :=
    if from_style = "mla" then
      match c.groups.get? 0, c.groups.get? 1 with
      | some a, some p => Except.ok (some (a, some "n.d.", p))
      | _, _ => Except.error PyErr.indexError
    else if from_style = "apa" then
      match c.groups.get? 0, c.groups.get? 1 with
      | some a, some y =>
        let pg : Option String :=
          match reSearch pagePattern 1 c.text with
          | some m => pyGrp c.text m 1
          | none => none
        Except.ok (some (a, y, pg))
      | _, _ => Except.error PyErr.indexError
    else if from_style = "chicago" then
      if c.type = "in_text" then
        match c.groups.get? 0, c.groups.get? 1 with
        | some a, some y =>
          let pg : Option String :=
            match reSearch numberPattern 1 c.text with
            | some m => pyGrp c.text m 1
            | none => none
          Except.ok (some (a, y, pg))
        | _, _ => Except.error PyErr.indexError
      else
        match c.groups.get? 0, c.groups.get? 1, c.groups.get? 2 with
        | some _, some a, some p => Except.ok (some (a, some "n.d.", p))
        | _, _, _ => Except.error PyErr.indexError
    else Except.ok none
  match ext with
  | Except.error e => Except.error e
  | Except.ok loc =>
    if to_style = "mla" then
      match loc with
      | none => Except.error PyErr.unboundLocal
      | some (a, _, p) =>
        if pyTruthy p then Except.ok ("(" ++ pyStr a ++ " " ++ pyStr p ++ ")")
        else Except.ok ("(" ++ pyStr a ++ ")")
    else if to_style = "apa" then
      match loc with
      | none => Except.error PyErr.unboundLocal
      | some (a, y, p) =>
        if pyTruthy p then
          Except.ok ("(" ++ pyStr a ++ ", " ++ pyStr y ++ ", p. " ++ pyStr p ++ ")")
        else Except.ok ("(" ++ pyStr a ++ ", " ++ pyStr y ++ ")")
    else if to_style = "chicago" then
      if c.type = "in_text" then
        match loc with
        | none => Except.error PyErr.unboundLocal
        | some (a, y, p) =>
          if pyTruthy p then
            Except.ok (pyStr a ++ " (" ++ pyStr y ++ ", " ++ pyStr p ++ ")")
          else Except.ok (pyStr a ++ " (" ++ pyStr y ++ ")")
      else Except.ok "[Citation converted to Chicago footnote]"
    else Except.ok c.text

/-- Letters-and-whitespace class `[a-zA-Z\s]` of the heading stopper. -/
def isLetterOrWs (c : Char) : Bool := isUpperAZ c || isLowerAZ c || isPyWs c

/-- The section-locating pattern of `CitationProcessor.identify_bibliography`
for one title, compiled with `re.DOTALL`:
`(?:^|\n)\s*TITLE\s*(?:\n|$)(.*?)(?:$|\n\s*(?:[A-Z][a-zA-Z\s]+:|\[))`. -/
def bibTitlePattern (title : String) : RE :=
  rcat [RE.alt RE.bos (RE.ch '\n'), RE.star true (RE.cls isPyWs), rlit title,
    RE.star true (RE.cls isPyWs), RE.alt (RE.ch '\n') RE.eos,
    RE.grp 0 (RE.star false (RE.cls (fun _ => true))),
    RE.alt RE.eos
      (rcat [RE.ch '\n', RE.star true (RE.cls isPyWs),
        RE.alt (rcat [RE.cls isUpperAZ, rplus true (RE.cls isLetterOrWs), RE.ch ':'])
          (RE.ch '[')])]

/-- The ordered list of bibliography section titles tried by the source. -/
def bibTitles : List String :=
  ["Works Cited", "References", "Bibliography", "Literature Cited", "Sources"]

/-- First titled bibliography section: try each title in order; on a match
return `match.group(1).strip()`. -/
def findTitledBib : List String → String → Option String
  | [], _ => none
  | t :: ts, text =>
    match reSearch (bibTitlePattern t) 1 text with
    | some m => some (pyStrip (pyStr (pyGrp text m 1)))
    | none => findTitledBib ts text

/-- Fallback detector pattern `(?:^|\n)([A-Z][a-z]+(?:[-\s][A-Z][a-z]+)*),\s+[A-Z]`. -/
def bibFallbackPattern : RE :=
  rcat [RE.alt RE.bos (RE.ch '\n'), RE.grp 0 reAuthorName, RE.ch ',',
    rplus true (RE.cls isPyWs), RE.cls isUpperAZ]

/-- Fallback step: if the document has more than three paragraph blocks and
the last three, re-joined, contain a surname-initial line, use that tail. -/
def bibFallback (text : String) : Option String :=
  let paragraphs := splitOnBlank text
  if paragraphs.length > 3 then
    let last_paras := joinWithBlank (paragraphs.drop (paragraphs.length - 3))
    if (reSearch bibFallbackPattern 1 last_paras).isSome then some last_paras else none
  else none

/-- Locating phase of `identify_bibliography`: titled section first (its
stripped body must be truthy), then the fallback; an empty result is falsy
and yields `none`. -/
def locateBib (text : String) : Option String :=
  let titled := findTitledBib bibTitles text
  let section2 :=
    match titled with
    | some s => if s = "" then bibFallback text else some s
    | none => bibFallback text
  match section2 with
  | some s => if s = "" then none else some s
  | none => none

/-- Entry-boundary pattern `\n(?=[A-Z])` used by `re.split`. -/
def entryBoundaryPattern : RE :=
  rcat [RE.ch '\n', RE.lookAhead true (RE.cls isUpperAZ)]

/-- Leading-author pattern `^([A-Z][a-z]+(?:[-\s][A-Z][a-z]+)*)` for `re.match`. -/
def entryAuthorPattern : RE := rcat [RE.bos, RE.grp 0 reAuthorName]

/-- First-four-digit-number pattern `(\d{4})`. -/
def entryYearPattern : RE := RE.grp 0 reYear4

/-- Quoted-title pattern `"([^"]+)"`. -/
def entryTitlePattern : RE :=
  rcat [RE.ch '"', RE.grp 0 (rplus true (RE.cls (fun c => c ≠ '"'))), RE.ch '"']

/-- A bibliography entry dict: optional extracted fields plus the raw text,
which is always stored. -/
structure BibEntry where
  author : Option String
  year : Option String
  title : Option String
  raw : String
deriving DecidableEq, Repr

/-- Parse one raw entry: skip it when blank after stripping, otherwise
extract author (leading name match), year (first four-digit number), title
(quoted substring, else the stripped text between author end and year start)
and keep the stripped text as `raw`. -/
def parseBibEntry (entry_text : String) : Option BibEntry :=
  let t := pyStrip entry_text
  if t = "" then none
  else
    let authorM := reMatchStart entryAuthorPattern 1 t
    let yearM := reSearch entryYearPattern 1 t
    let titleM := reSearch entryTitlePattern 1 t
    let author := authorM.map (fun m => pyStr (pyGrp t m 1))
    let year := yearM.map (fun m => pyStr (pyGrp t m 1))
    let title : Option String :=
      match titleM with
      | some m => some (pyStr (pyGrp t m 1))
      | none =>
        match authorM, yearM with
        | some am, some ym =>
          if am.mstop < ym.mstart then
            let potential := pyStrip (strSlice t am.mstop ym.mstart)
            if potential ≠ "" then some (pyStripPunct potential) else none
          else none
        | _, _ => none
    some { author := author, year := year, title := title, raw := t }

/-- `CitationProcessor.identify_bibliography`: locate the bibliography block,
split it into entries at line starts beginning with a capital letter, and
parse each non-blank entry. -/
def identify_bibliography (text : String) : List BibEntry :=
  match locateBib text with
  | none => []
  | some bib => (reSplit entryBoundaryPattern 0 bib).filterMap parseBibEntry

/-- A state whose derived lines-per-page is 33, for the concrete heading example. -/
def st33 : FormatOptimizer := { initFormatOptimizer with lines_per_page := 33 }

/-- A one-sentence segmenter: the degenerate collaborator that returns the
whole text as a single sentence. -/
def oneSentence : String → List String := fun t => [t]

/-- A text containing the same MLA citation at two different offsets. -/
def dupText : String := "(Smith 45) yes (Smith 45)"

/-- The citation record for `(Smith 45)` with captured groups Smith and 45. -/
def cSmith : PyCitation :=
  { text := "(Smith 45)"
    type := "parenthetical"
    sentence := "Stated in (Smith 45)."
    groups := [some "Smith", some "45"] }

/-- A text with a References heading followed by two author-led lines. -/
def bibText : String :=
  "References\nSmith, John. 2020. The Topic.\nJones, Mary. 2021. More Work."

theorem calculate_optimal_margins_margin_left (st : FormatOptimizer) (t : ℚ) :
    (calculate_optimal_margins st t).margin_left
      = (st.page_width - t * (st.default_font_size * (0.6 : ℚ))) / 2 := by
  simp [calculate_optimal_margins, set_margins, calcContentArea, unitToPoint]

theorem calculate_optimal_margins_margin_right (st : FormatOptimizer) (t : ℚ) :
    (calculate_optimal_margins st t).margin_right
      = (st.page_width - t * (st.default_font_size * (0.6 : ℚ))) / 2 := by
  simp [calculate_optimal_margins, set_margins, calcContentArea, unitToPoint]

theorem calculate_optimal_margins_content_width (st : FormatOptimizer) (t : ℚ) :
    (calculate_optimal_margins st t).content_width
      = st.page_width - ((st.page_width - t * (st.default_font_size * (0.6 : ℚ))) / 2
          + (st.page_width - t * (st.default_font_size * (0.6 : ℚ))) / 2) := by
  simp [calculate_optimal_margins, set_margins, calcContentArea, unitToPoint]

theorem calculate_optimal_margins_chars_per_line (st : FormatOptimizer) (t : ℚ) :
    (calculate_optimal_margins st t).chars_per_line
      = ratTrunc ((st.page_width - ((st.page_width - t * (st.default_font_size * (0.6 : ℚ))) / 2
          + (st.page_width - t * (st.default_font_size * (0.6 : ℚ))) / 2)) / (12 * (0.6 : ℚ))) := by
  simp [calculate_optimal_margins, set_margins, calcContentArea, unitToPoint]

theorem init_page_width : initFormatOptimizer.page_width = 612 := by
  norm_num [initFormatOptimizer, calcContentArea]

theorem init_font_size : initFormatOptimizer.default_font_size = 12 := by
  norm_num [initFormatOptimizer, calcContentArea]

/-- C6: the margin computation solves `pageWidth - 2x = target × fontSize × 0.6`
exactly and sets left = right = x; on the default state (612-point page,
contentWidth 468) with font size 12, target 66 gives left = right = 68.4 exactly. -/
theorem margins_exact_solve :
    (∀ (st : FormatOptimizer) (t : ℚ),
      (calculate_optimal_margins st t).margin_left
          = (st.page_width - t * (st.default_font_size * (0.6 : ℚ))) / 2
      ∧ (calculate_optimal_margins st t).margin_right
          = (calculate_optimal_margins st t).margin_left
      ∧ st.page_width - 2 * (calculate_optimal_margins st t).margin_left
          = t * (st.default_font_size * (0.6 : ℚ)))
    ∧ (calculate_optimal_margins initFormatOptimizer 66).margin_left = (68.4 : ℚ)
    ∧ (calculate_optimal_margins initFormatOptimizer 66).margin_right = (68.4 : ℚ)
    ∧ initFormatOptimizer.content_width = 468 := by
  refine ⟨fun st t => ⟨calculate_optimal_margins_margin_left st t, ?_, ?_⟩, ?_, ?_, ?_⟩
  · rw [calculate_optimal_margins_margin_right, calculate_optimal_margins_margin_left]
  · rw [calculate_optimal_margins_margin_left]; ring
  · rw [calculate_optimal_margins_margin_left, init_page_width, init_font_size]; norm_num
  · rw [calculate_optimal_margins_margin_right, init_page_width, init_font_size]; norm_num
  · norm_num [initFormatOptimizer, calcContentArea]

/-- C5 counterexample: with the default page, target line length 100 makes the
solved margin negative (-54); the code raises no geometry error but stores the
negative margins and recomputes the derived metrics from them. -/
theorem optimal_margins_negative_cex :
    (calculate_optimal_margins initFormatOptimizer 100).margin_left = -54 ∧
    (calculate_optimal_margins initFormatOptimizer 100).margin_right = -54 ∧
    (calculate_optimal_margins initFormatOptimizer 100).content_width = 720 ∧
    (calculate_optimal_margins initFormatOptimizer 100).chars_per_line = 100 ∧
    initFormatOptimizer.page_width = 612 ∧ initFormatOptimizer.margin_left = 72 := by
  refine ⟨?_, ?_, ?_, ?_, init_page_width, ?_⟩
  · rw [calculate_optimal_margins_margin_left, init_page_width, init_font_size]; norm_num
  · rw [calculate_optimal_margins_margin_right, init_page_width, init_font_size]; norm_num
  · rw [calculate_optimal_margins_content_width, init_page_width, init_font_size]; norm_num
  · rw [calculate_optimal_margins_chars_per_line, init_page_width, init_font_size]
    have harg : ((612 : ℚ) - ((612 - 100 * (12 * (0.6 : ℚ))) / 2
        + (612 - 100 * (12 * (0.6 : ℚ))) / 2)) / (12 * (0.6 : ℚ)) = ((100 : ℕ) : ℚ) := by
      norm_num
    rw [harg, ratTrunc]
    norm_num
  · norm_num [initFormatOptimizer, calcContentArea]

/-- C5 amended: when the solved margin is negative, `calculate_optimal_margins`
still installs it as the left and right margin and recomputes the content
metrics from the corrupted values; no error path exists in the code. -/
theorem optimal_margins_no_negative_check :
    ∀ (st : FormatOptimizer) (t : ℚ),
      (st.page_width - t * (st.default_font_size * (0.6 : ℚ))) / 2 < 0 →
      (calculate_optimal_margins st t).margin_left
          = (st.page_width - t * (st.default_font_size * (0.6 : ℚ))) / 2
      ∧ (calculate_optimal_margins st t).margin_left < 0
      ∧ (calculate_optimal_margins st t).content_width
          = st.page_width
            - 2 * ((st.page_width - t * (st.default_font_size * (0.6 : ℚ))) / 2) := by
  intro st t hneg
  refine ⟨calculate_optimal_margins_margin_left st t, ?_, ?_⟩
  · rw [calculate_optimal_margins_margin_left]; exact hneg
  · rw [calculate_optimal_margins_content_width]; ring

/-- Witness for the C5 amended theorem at the default state and target 100. -/
theorem optimal_margins_no_negative_check_w :
    (calculate_optimal_margins initFormatOptimizer 100).margin_left < 0 :=
  (optimal_margins_no_negative_check initFormatOptimizer 100
    (by rw [init_page_width, init_font_size]; norm_num)).2.1

/-- C1: the style-voting step picks the style with the maximum count, ties
broken by the catalog order MLA before APA before CHICAGO, and yields `none`
(UNKNOWN) exactly when the maximum count is zero; counts {2, 2, 0} give MLA
and all-zero counts give UNKNOWN. -/
theorem style_voter_vote :
    (∀ c : StyleCounts,
      (dominantStyle c = none ↔ maxCount c = 0) ∧
      (∀ s, dominantStyle c = some s →
        c.get s = maxCount c ∧ ∀ u, c.get u = maxCount c → styleRank s ≤ styleRank u)) ∧
    dominantStyle ⟨2, 2, 0⟩ = some CitStyle.mla ∧
    dominantStyle ⟨0, 0, 0⟩ = none := by
  refine ⟨fun c => ?_, by decide, by decide⟩
  obtain ⟨m, a, ch⟩ := c
  by_cases h1 : a > m
  · by_cases h2 : ch > a
    · by_cases h0 : ch = 0
      · exfalso; omega
      · have hdom : dominantStyle ⟨m, a, ch⟩ = some CitStyle.chicago := by
          simp [dominantStyle, maxStyleKey, StyleCounts.get, h1, h2, h0]
        constructor
        · rw [hdom]; simp [maxCount]; omega
        · intro s hs
          have hks := Option.some.inj (hdom ▸ hs)
          subst hks
          refine ⟨by simp [StyleCounts.get, maxCount]; omega, fun u hu => ?_⟩
          cases u <;> simp [StyleCounts.get, maxCount, styleRank] at hu ⊢ <;> omega
    · by_cases h0 : a = 0
      · exfalso; omega
      · have hdom : dominantStyle ⟨m, a, ch⟩ = some CitStyle.apa := by
          simp [dominantStyle, maxStyleKey, StyleCounts.get, h1, h2, h0]
        constructor
        · rw [hdom]; simp [maxCount]; omega
        · intro s hs
          have hks := Option.some.inj (hdom ▸ hs)
          subst hks
          refine ⟨by simp [StyleCounts.get, maxCount]; omega, fun u hu => ?_⟩
          cases u <;> simp [StyleCounts.get, maxCount, styleRank] at hu ⊢ <;> omega
  · by_cases h2 : ch > m
    · by_cases h0 : ch = 0
      · exfalso; omega
      · have hdom : dominantStyle ⟨m, a, ch⟩ = some CitStyle.chicago := by
          simp [dominantStyle, maxStyleKey, StyleCounts.get, h1, h2, h0]
        constructor
        · rw [hdom]; simp [maxCount]; omega
        · intro s hs
          have hks := Option.some.inj (hdom ▸ hs)
          subst hks
          refine ⟨by simp [StyleCounts.get, maxCount]; omega, fun u hu => ?_⟩
          cases u <;> simp [StyleCounts.get, maxCount, styleRank] at hu ⊢ <;> omega
    · by_cases h0 : m = 0
      · have ha : a = 0 := by omega
        have hch : ch = 0 := by omega
        subst h0; subst ha; subst hch
        exact ⟨by decide, fun s hs =>
          absurd hs (by simp [dominantStyle, maxStyleKey, StyleCounts.get])⟩
      · have hdom : dominantStyle ⟨m, a, ch⟩ = some CitStyle.mla := by
          simp [dominantStyle, maxStyleKey, StyleCounts.get, h1, h2, h0]
        constructor
        · rw [hdom]; simp [maxCount]; omega
        · intro s hs
          have hks := Option.some.inj (hdom ▸ hs)
          subst hks
          refine ⟨by simp [StyleCounts.get, maxCount]; omega, fun u hu => ?_⟩
          cases u <;> simp [StyleCounts.get, maxCount, styleRank] at hu ⊢ <;> omega

/-- Witness for C1 at the tie counts {2, 2, 0}. -/
theorem style_voter_vote_w :
    (⟨2, 2, 0⟩ : StyleCounts).get CitStyle.mla = maxCount ⟨2, 2, 0⟩ ∧
    styleRank CitStyle.mla ≤ styleRank CitStyle.apa :=
  ⟨((style_voter_vote.1 ⟨2, 2, 0⟩).2 CitStyle.mla (by decide)).1,
   ((style_voter_vote.1 ⟨2, 2, 0⟩).2 CitStyle.mla (by decide)).2 CitStyle.apa (by decide)⟩

theorem spaceJoin_append (cur : List String) (w : String) :
    spaceJoin (cur ++ [w]) = if cur.isEmpty then w else spaceJoin cur ++ " " ++ w := by
  induction cur with
  | nil => rfl
  | cons x rest ih =>
    cases rest with
    | nil => rfl
    | cons y t =>
      have h1 : spaceJoin ((x :: y :: t) ++ [w]) = x ++ " " ++ spaceJoin ((y :: t) ++ [w]) := rfl
      rw [h1, ih]
      simp [spaceJoin, String.append_assoc]

theorem spaceJoin_length_pos (cur : List String) (hne : cur ≠ [])
    (hw : ∀ x ∈ cur, x ≠ "") : 0 < (spaceJoin cur).length := by
  induction cur with
  | nil => exact absurd rfl hne
  | cons x rest ih =>
    cases rest with
    | nil =>
      have hx : x ≠ "" := hw x (by simp)
      simp only [spaceJoin]
      cases x with
      | mk d =>
        cases d with
        | nil => exact absurd rfl hx
        | cons c cs => simp [String.length]
    | cons y t =>
      simp only [spaceJoin, String.length_append]
      have : (" " : String).length = 1 := rfl
      omega

theorem wrapGo_eq_chunks (cpl : ℤ) :
    ∀ (ws cur : List String) (curLen : ℤ) (lines : List String),
      wrapGo cpl ws cur curLen lines
        = lines ++ (greedyChunksGo cpl ws cur curLen).map spaceJoin := by
  intro ws
  induction ws with
  | nil =>
    intro cur curLen lines
    simp only [wrapGo, greedyChunksGo]
    by_cases h : cur.isEmpty <;> simp [h]
  | cons w rest ih =>
    intro cur curLen lines
    simp only [wrapGo, greedyChunksGo]
    by_cases h : curLen + (w.length : ℤ) + (if curLen > 0 then 1 else 0) > cpl
    · simp only [if_pos h, ih, List.map_cons, List.append_assoc, List.singleton_append]
    · simp only [if_neg h, ih]

theorem greedyChunksGo_flatten (cpl : ℤ) :
    ∀ (ws cur : List String) (curLen : ℤ),
      (greedyChunksGo cpl ws cur curLen).flatten = cur ++ ws := by
  intro ws
  induction ws with
  | nil =>
    intro cur curLen
    cases cur <;> simp [greedyChunksGo]
  | cons w rest ih =>
    intro cur curLen
    simp only [greedyChunksGo]
    by_cases h : curLen + (w.length : ℤ) + (if curLen > 0 then 1 else 0) > cpl
    · simp [if_pos h, ih]
    · simp [if_neg h, ih]

theorem splitWsGo_ne_empty :
    ∀ (cs acc : List Char), ∀ w ∈ splitWsGo cs acc, w ≠ "" := by
  intro cs
  induction cs with
  | nil =>
    intro acc w hw
    simp only [splitWsGo] at hw
    by_cases h : acc.isEmpty
    · simp [h] at hw
    · simp [h] at hw
      subst hw
      intro hcon
      exact h (by simp [show acc = [] from congrArg String.data hcon])
  | cons c rest ih =>
    intro acc w hw
    simp only [splitWsGo] at hw
    by_cases h1 : isPyWs c
    · simp only [if_pos h1] at hw
      by_cases h2 : acc.isEmpty
      · exact ih [] w (by simpa [h2] using hw)
      · simp only [if_neg h2, List.mem_cons] at hw
        rcases hw with rfl | hw
        · intro hcon
          exact h2 (by simp [show acc = [] from congrArg String.data hcon])
        · exact ih [] w hw
    · exact ih (acc ++ [c]) w (by simpa [h1] using hw)

theorem greedyChunksGo_bound (cpl : ℤ) (hcpl : 0 ≤ cpl) :
    ∀ (ws cur : List String) (curLen : ℤ),
      (∀ w ∈ ws, w ≠ "") → (∀ w ∈ cur, w ≠ "") →
      curLen = ((spaceJoin cur).length : ℤ) →
      (cur = [] ∨ curLen ≤ cpl ∨ ∃ w, cur = [w]) →
      ∀ ch ∈ greedyChunksGo cpl ws cur curLen,
        ((spaceJoin ch).length : ℤ) ≤ cpl ∨ ∃ w, ch = [w] := by
  intro ws
  induction ws with
  | nil =>
    intro cur curLen _ _ hlen hdisj ch hch
    simp only [greedyChunksGo] at hch
    by_cases h : cur.isEmpty
    · simp [h] at hch
    · simp [h] at hch
      subst hch
      rcases hdisj with rfl | hle | hsing
      · simp at h
      · exact Or.inl (hlen ▸ hle)
      · exact Or.inr hsing
  | cons w rest ih =>
    intro cur curLen hws hcur hlen hdisj ch hch
    have hwne : w ≠ "" := hws w (by simp)
    have hrest : ∀ x ∈ rest, x ≠ "" := fun x hx => hws x (by simp [hx])
    simp only [greedyChunksGo] at hch
    by_cases h : curLen + (w.length : ℤ) + (if curLen > 0 then 1 else 0) > cpl
    · simp only [if_pos h, List.mem_cons] at hch
      rcases hch with rfl | hch
      · rcases hdisj with rfl | hle | hsing
        · exact Or.inl (by simpa [spaceJoin] using hcpl)
        · exact Or.inl (hlen ▸ hle)
        · exact Or.inr hsing
      · refine ih [w] (w.length : ℤ) hrest (by simpa using hwne) (by simp [spaceJoin]) ?_ ch hch
        exact Or.inr (Or.inr ⟨w, rfl⟩)
    · simp only [if_neg h] at hch
      refine ih (cur ++ [w]) _ hrest ?_ ?_ ?_ ch hch
      · intro x hx
        rcases List.mem_append.mp hx with hx | hx
        · exact hcur x hx
        · simp at hx; subst hx; exact hwne
      · rcases eq_or_ne cur [] with rfl | hne
        · have h0 : curLen = 0 := by simpa [spaceJoin] using hlen
          rw [spaceJoin_append]
          simp [h0]
        · have hpos : 0 < (spaceJoin cur).length := spaceJoin_length_pos cur hne hcur
          have hemp : cur.isEmpty = false := by
            cases cur
            · exact absurd rfl hne
            · rfl
          have hgt : curLen > 0 := by rw [hlen]; exact_mod_cast hpos
          rw [spaceJoin_append, hemp, if_pos hgt]
          simp only [Bool.false_eq_true, if_false, String.length_append]
          have hsp : (" " : String).length = 1 := rfl
          rw [hlen]
          push_cast
          omega
      · exact Or.inr (Or.inl (by omega))

/-- C7: the line breaker is the greedy word-wrap of the claim: the flushed
lines are the space-joins of the greedy chunk decomposition of the word list,
the chunks concatenate back to the exact word sequence (words are kept in
order and never split), every chunk either fits within `charsPerLine` or is a
single overlong word on its own line, and breaking `aaaa bbbb cccc` at 9
characters per line yields `[aaaa bbbb, cccc]`. -/
theorem line_breaker_greedy_wrap :
    (∀ (st : FormatOptimizer) (text : String) (fs : ℚ),
      calculate_line_breaks st text fs
        = wrapGo (ratTrunc (st.content_width / (fs * (0.6 : ℚ)))) (pySplitWs text) [] 0 []) ∧
    (∀ (text : String) (cpl : ℤ), 0 < cpl →
      wrapGo cpl (pySplitWs text) [] 0 [] = (greedyChunks cpl (pySplitWs text)).map spaceJoin
      ∧ (greedyChunks cpl (pySplitWs text)).flatten = pySplitWs text
      ∧ ∀ ch ∈ greedyChunks cpl (pySplitWs text),
          ((spaceJoin ch).length : ℤ) ≤ cpl ∨ ∃ w, ch = [w]) ∧
    wrapGo 9 (pySplitWs "aaaa bbbb cccc") [] 0 [] = ["aaaa bbbb", "cccc"] := by
  refine ⟨fun st text fs => rfl, fun text cpl hcpl => ⟨?_, ?_, ?_⟩, by decide⟩
  · simpa [greedyChunks] using wrapGo_eq_chunks cpl (pySplitWs text) [] 0 []
  · simpa [greedyChunks] using greedyChunksGo_flatten cpl (pySplitWs text) [] 0
  · exact greedyChunksGo_bound cpl (le_of_lt hcpl) (pySplitWs text) [] 0
      (splitWsGo_ne_empty text.data []) (by simp) (by simp [spaceJoin]) (Or.inl rfl)

/-- Witness for C7 at the concrete text and nine characters per line. -/
theorem line_breaker_greedy_wrap_w :
    wrapGo 9 (pySplitWs "aaaa bbbb cccc") [] 0 []
      = (greedyChunks 9 (pySplitWs "aaaa bbbb cccc")).map spaceJoin ∧
    (greedyChunks 9 (pySplitWs "aaaa bbbb cccc")).flatten = pySplitWs "aaaa bbbb cccc" :=
  ⟨(line_breaker_greedy_wrap.2.1 "aaaa bbbb cccc" 9 (by decide)).1,
   (line_breaker_greedy_wrap.2.1 "aaaa bbbb cccc" 9 (by decide)).2.1⟩

theorem ratFloor_intCast (z : ℤ) : ratFloor (z : ℚ) = z := by
  simp [ratFloor, Rat.num_intCast, Rat.den_intCast, Int.fdiv_one]

theorem ratCeil_intCast (z : ℤ) : ratCeil (z : ℚ) = z := by
  unfold ratCeil
  have h : -((z : ℚ)) = ((-z : ℤ) : ℚ) := by push_cast; ring
  rw [h, ratFloor_intCast]
  ring

theorem placeHeading_eq_claimSpec (lpp : ℤ) (breaks : List ℤ) (h : ℤ) :
    placeHeading lpp breaks h = headingClaimSpec lpp breaks h := by
  unfold placeHeading headingClaimSpec
  have hp : (fun b => decide (b < h) && decide (h - b < 3))
      = (fun b : ℤ => decide (0 < h - b) && decide (h - b < 3)) := by
    funext b
    congr 1
    exact decide_eq_decide.mpr (by omega)
  rw [hp]

theorem find?_min_of_sorted {p : ℤ → Bool} :
    ∀ l : List ℤ, l.Pairwise (· < ·) → ∀ b ∈ l, p b = true →
      (∀ b2 ∈ l, p b2 = true → b ≤ b2) → l.find? p = some b := by
  intro l
  induction l with
  | nil => intro _ b hb; simp at hb
  | cons x xs ih =>
    intro hp b hb hpb hmin
    rcases List.mem_cons.mp hb with rfl | hbx
    · exact List.find?_cons_of_pos xs hpb
    · have hxb : x < b := (List.pairwise_cons.mp hp).1 b hbx
      have hpx : ¬ p x = true := by
        intro hx
        have := hmin x (by simp) hx
        omega
      rw [List.find?_cons_of_neg xs hpx]
      exact ih (List.pairwise_cons.mp hp).2 b hbx hpb
        (fun b2 hb2 hp2 => hmin b2 (by simp [hb2]) hp2)

theorem pageBreaksOf_sorted (st : FormatOptimizer) (total : ℕ)
    (hlpp : 0 < st.lines_per_page) : (pageBreaksOf st total).Pairwise (· < ·) := by
  unfold pageBreaksOf
  exact @List.Pairwise.map ℤ ℕ (fun a b => a < b) _ (fun a b => a < b)
    (fun (i : ℕ) => (i : ℤ) * st.lines_per_page)
    (fun a b hab => mul_lt_mul_of_pos_right (by exact_mod_cast hab) hlpp)
    (List.Pairwise.sublist (List.drop_sublist 1 _) (List.pairwise_lt_range _))

theorem st33_lines_per_page : st33.lines_per_page = 33 := rfl

theorem pageBreaksOf_st33 : pageBreaksOf st33 66 = [33] := by
  have harg : ((66 : ℕ) : ℚ) / ((st33.lines_per_page : ℤ) : ℚ) = ((2 : ℤ) : ℚ) := by
    rw [st33_lines_per_page]
    push_cast
    norm_num
  have hpag : calculate_pagination st33 66 = 2 := by
    unfold calculate_pagination
    rw [harg, ratCeil_intCast]
  simp only [pageBreaksOf, hpag, st33_lines_per_page]
  decide

/-- C8: the heading optimizer maps each heading through the adjustment the
claim describes: a heading strictly between 0 and 3 lines after a page-break
line `i * linesPerPage` moves to one line before that break with its page
recomputed from the adjusted position, any other heading keeps
`position / linesPerPage + 1`; with a break at line 33 a heading at line 34
is moved to line 32 on page 1. -/
theorem heading_placement_optimizer :
    (∀ (st : FormatOptimizer) (headings : List ℤ) (total : ℕ),
      0 < st.lines_per_page →
      optimize_heading_placement st headings total
          = headings.map (headingClaimSpec st.lines_per_page (pageBreaksOf st total))
      ∧ ∀ i h, headings.get? i = some h →
          ((∀ b ∈ pageBreaksOf st total, ¬(b < h ∧ h < b + 3)) →
            (optimize_heading_placement st headings total).get? i
              = some ⟨h, Int.fdiv h st.lines_per_page + 1⟩)
          ∧ (∀ b ∈ pageBreaksOf st total, b < h → h < b + 3 →
              (∀ b2 ∈ pageBreaksOf st total, b2 < h ∧ h < b2 + 3 → b ≤ b2) →
              (optimize_heading_placement st headings total).get? i
                = some ⟨b - 1, Int.fdiv (b - 1) st.lines_per_page + 1⟩))
    ∧ optimize_heading_placement st33 [34] 66 = [⟨32, 1⟩] := by
  constructor
  · intro st headings total hlpp
    constructor
    · unfold optimize_heading_placement
      exact List.map_congr_left (fun h _ => placeHeading_eq_claimSpec _ _ h)
    · intro i h hi
      have hout : (optimize_heading_placement st headings total).get? i
          = some (placeHeading st.lines_per_page (pageBreaksOf st total) h) := by
        unfold optimize_heading_placement
        rw [List.get?_map, hi]
        rfl
      constructor
      · intro hnone
        have hfind : (pageBreaksOf st total).find?
            (fun b => decide (b < h) && decide (h - b < 3)) = none := by
          rw [List.find?_eq_none]
          intro b hb
          have := hnone b hb
          simp only [Bool.and_eq_true, decide_eq_true_eq]
          omega
        rw [hout]
        unfold placeHeading
        rw [hfind]
      · intro b hb hb1 hb2 hbmin
        have hfind : (pageBreaksOf st total).find?
            (fun b => decide (b < h) && decide (h - b < 3)) = some b := by
          refine find?_min_of_sorted _ (pageBreaksOf_sorted st total hlpp) b hb ?_ ?_
          · simp only [Bool.and_eq_true, decide_eq_true_eq]
            omega
          · intro b2 hb2mem hp2
            simp only [Bool.and_eq_true, decide_eq_true_eq] at hp2
            exact hbmin b2 hb2mem ⟨hp2.1, by omega⟩
        rw [hout]
        unfold placeHeading
        rw [hfind]
  · unfold optimize_heading_placement
    rw [pageBreaksOf_st33, st33_lines_per_page]
    decide

/-- Witness for C8 at the 33-lines-per-page state, heading 34, 66 lines. -/
theorem heading_placement_optimizer_w :
    (optimize_heading_placement st33 [34] 66).get? 0
      = some ⟨32, Int.fdiv (33 - 1) st33.lines_per_page + 1⟩ := by
  have h := ((heading_placement_optimizer.1 st33 [34] 66 (by decide)).2 0 34 rfl).2
    33 (by rw [pageBreaksOf_st33]; simp) (by decide) (by decide)
    (by rw [pageBreaksOf_st33]; intro b2 hb2 _; simp at hb2; omega)
  simpa using h

theorem mla_patterns_identical : mla_parenthetical = mla_in_text := rfl

theorem mem_collectCits (f : String → List PyCitation) :
    ∀ (ss : List String) (c : PyCitation),
      c ∈ collectCits f ss ↔ ∃ s, s ∈ ss ∧ c ∈ f s := by
  intro ss c
  induction ss with
  | nil => simp [collectCits]
  | cons s rest ih =>
    simp only [collectCits, List.mem_append, ih, List.mem_cons]
    constructor
    · rintro (h | ⟨u, hu, hc⟩)
      · exact ⟨s, Or.inl rfl, h⟩
      · exact ⟨u, Or.inr hu, hc⟩
    · rintro ⟨u, rfl | hu, hc⟩
      · exact Or.inl hc
      · exact Or.inr ⟨u, hu, hc⟩

theorem length_collectCits (f : String → List PyCitation) :
    ∀ ss : List String,
      (collectCits f ss).length = (ss.map (fun s => (f s).length)).sum := by
  intro ss
  induction ss with
  | nil => rfl
  | cons s rest ih => simp [collectCits, ih]

theorem sentCitsMla_length (s : String) :
    (sentCitsMla s).length = 2 * (reFinditer mla_in_text 2 s).length := by
  simp [sentCitsMla, citationsOfPattern, mla_patterns_identical]
  omega

/-- C10: the two MLA patterns of the catalog are the identical regular
expression, so every MLA match in a sentence is recorded twice, once as
`in_text` and once as `parenthetical` (the record lists differ only in the
kind tag), and the MLA style count equals exactly twice the number of
distinct MLA matches, hence is always even. -/
theorem mla_double_count :
    mla_parenthetical = mla_in_text ∧
    (∀ (seg : String → List String) (text : String),
      (extract_citations seg text).style_counts.mla
        = 2 * ((seg text).map (fun s => (reFinditer mla_in_text 2 s).length)).sum
      ∧ Even (extract_citations seg text).style_counts.mla) ∧
    (∀ s : String,
      citationsOfPattern mla_parenthetical 2 "parenthetical" s
        = (citationsOfPattern mla_in_text 2 "in_text" s).map
            (fun c => { c with type := "parenthetical" })) := by
  refine ⟨rfl, fun seg text => ?_, fun s => ?_⟩
  · have hc : (extract_citations seg text).style_counts.mla
        = (collectCits sentCitsMla (seg text)).length := rfl
    have hsum : (collectCits sentCitsMla (seg text)).length
        = 2 * ((seg text).map (fun s => (reFinditer mla_in_text 2 s).length)).sum := by
      rw [length_collectCits]
      have hmap : (seg text).map (fun s => (sentCitsMla s).length)
          = (seg text).map (fun s => 2 * (reFinditer mla_in_text 2 s).length) :=
        List.map_congr_left (fun s _ => sentCitsMla_length s)
      rw [hmap]
      induction seg text with
      | nil => rfl
      | cons u rest ih => simp [ih]; ring
    refine ⟨hc.trans hsum, ?_⟩
    rw [hc.trans hsum]
    exact even_two_mul _
  · rw [mla_patterns_identical]
    unfold citationsOfPattern
    rw [List.map_map]
    exact List.map_congr_left (fun m _ => rfl)

/-- C4 counterexample: in `dupText` the single-sentence detector finds the
identical MLA citation at offsets 0 and 15, yet the two emitted records are
equal: the citation dict has no position key, so the original-text offset of
a match is not recorded. -/
theorem citation_position_cex :
    (reFinditer mla_in_text 2 dupText).map PyMatch.mstart = [0, 15] ∧
    (extract_citations oneSentence dupText).citMla.get? 0
      = (extract_citations oneSentence dupText).citMla.get? 1 ∧
    (extract_citations oneSentence dupText).citMla.get? 0
      = some ⟨"(Smith 45)", "in_text", dupText, [some "Smith", some "45"]⟩ := by
  refine ⟨by decide, by decide, by decide⟩

/-- C4 amended: every emitted MLA citation record consists of the matched
text, the kind tag, the enclosing sentence and the capture groups in
declaration order, and nothing else: records built from matches with equal
matched text and equal groups are equal, so no original-text position is
carried. -/
theorem citation_record_fields :
    (∀ (seg : String → List String) (text : String) (c : PyCitation),
      c ∈ (extract_citations seg text).citMla →
      ∃ s, s ∈ seg text ∧ ∃ m, m ∈ reFinditer mla_in_text 2 s ∧
        (c = mkCitation s "in_text" m ∨ c = mkCitation s "parenthetical" m)) ∧
    (∀ (s tn : String) (m m2 : PyMatch),
      strSlice s m.mstart m.mstop = strSlice s m2.mstart m2.mstop →
      pyGroups s m = pyGroups s m2 →
      mkCitation s tn m = mkCitation s tn m2) := by
  constructor
  · intro seg text c hc
    have hc2 : c ∈ collectCits sentCitsMla (seg text) := hc
    rw [mem_collectCits] at hc2
    obtain ⟨s, hs, hcs⟩ := hc2
    rcases List.mem_append.mp hcs with h | h
    · obtain ⟨m, hm, rfl⟩ := List.mem_map.mp h
      exact ⟨s, hs, m, hm, Or.inl rfl⟩
    · obtain ⟨m, hm, rfl⟩ := List.mem_map.mp h
      rw [mla_patterns_identical] at hm
      exact ⟨s, hs, m, hm, Or.inr rfl⟩
  · intro s tn m m2 htext hgroups
    simp [mkCitation, htext, hgroups]

/-- Witness for the C4 amended theorem at the duplicated-citation text. -/
theorem citation_record_fields_w :
    (∃ s, s ∈ oneSentence dupText ∧ ∃ m, m ∈ reFinditer mla_in_text 2 s ∧
      ((⟨"(Smith 45)", "in_text", dupText, [some "Smith", some "45"]⟩ : PyCitation)
          = mkCitation s "in_text" m
        ∨ (⟨"(Smith 45)", "in_text", dupText, [some "Smith", some "45"]⟩ : PyCitation)
          = mkCitation s "parenthetical" m)) ∧
    mkCitation dupText "in_text" ⟨0, 10, [some (1, 6), some (7, 9)]⟩
      = mkCitation dupText "in_text" ⟨15, 25, [some (16, 21), some (22, 24)]⟩ :=
  ⟨citation_record_fields.1 oneSentence dupText
      ⟨"(Smith 45)", "in_text", dupText, [some "Smith", some "45"]⟩ (by decide),
   citation_record_fields.2 dupText "in_text"
      ⟨0, 10, [some (1, 6), some (7, 9)]⟩ ⟨15, 25, [some (16, 21), some (22, 24)]⟩
      (by decide) (by decide)⟩

theorem parseBibEntry_raw (et : String) (e : BibEntry)
    (h : parseBibEntry et = some e) : e.raw ≠ "" := by
  unfold parseBibEntry at h
  by_cases h0 : pyStrip et = ""
  · rw [if_pos h0] at h
    exact absurd h (by simp)
  · rw [if_neg h0] at h
    obtain rfl := Option.some.inj h
    simpa using h0

/-- C9: the bibliography parser returns the empty sequence (not an error)
whenever neither the titled-section search nor the trailing-paragraphs
fallback locates a block; every entry it does return has a non-empty `raw`
holding the full stripped entry text; and on a text with a References
heading followed by two author-led lines it returns exactly those two
entries. -/
theorem bibliography_parser_behavior :
    (∀ text : String, locateBib text = none → identify_bibliography text = []) ∧
    (∀ (text : String) (e : BibEntry), e ∈ identify_bibliography text → e.raw ≠ "") ∧
    (identify_bibliography bibText).map BibEntry.raw
      = ["Smith, John. 2020. The Topic.", "Jones, Mary. 2021. More Work."] := by
  refine ⟨?_, ?_, ?_⟩
  · intro text h
    simp [identify_bibliography, h]
  · intro text e he
    unfold identify_bibliography at he
    cases hl : locateBib text with
    | none => rw [hl] at he; simp at he
    | some bib =>
      rw [hl] at he
      obtain ⟨et, _, hpe⟩ := List.mem_filterMap.mp he
      exact parseBibEntry_raw et e hpe
  · decide

/-- Witness for C9: a text with no bibliography yields the empty sequence,
and the first returned entry of the concrete example has non-empty raw. -/
theorem bibliography_parser_behavior_w :
    identify_bibliography "hello world" = [] ∧
    (⟨some "Smith", some "2020", some "John",
        "Smith, John. 2020. The Topic."⟩ : BibEntry).raw ≠ "" :=
  ⟨bibliography_parser_behavior.1 "hello world" (by decide),
   bibliography_parser_behavior.2.1 bibText
      ⟨some "Smith", some "2020", some "John", "Smith, John. 2020. The Topic."⟩
      (by decide)⟩

/-- C2 counterexample: converting the MLA citation with groups Smith and 45
to APA yields the page-carrying string, not the claimed page-free one. -/
theorem convert_mla_apa_cex :
    convert_citation cSmith "mla" "apa" = Except.ok "(Smith, n.d., p. 45)" ∧
    convert_citation cSmith "mla" "apa" ≠ Except.ok "(Smith, n.d.)" := by
  refine ⟨rfl, fun h => ?_⟩
  have h2 := Except.ok.inj h
  exact absurd h2 (by decide)

/-- C2 amended: for any citation whose captured groups are Smith and 45,
MLA-to-APA conversion returns `(Smith, n.d., p. 45)`: the year is the
unrecoverable `n.d.` and the captured page 45 is carried into the rendering. -/
theorem convert_mla_apa_amended :
    ∀ (txt ty sen : String),
      convert_citation ⟨txt, ty, sen, [some "Smith", some "45"]⟩ "mla" "apa"
        = Except.ok "(Smith, n.d., p. 45)" := by
  intro txt ty sen
  rfl

/-- C3 counterexample: an unknown target style silently returns the citation
text unchanged, and an unknown source style fails with an unbound-local
error, not an invalid-style error. -/
theorem convert_invalid_style_cex :
    convert_citation cSmith "mla" "harvard" = Except.ok "(Smith 45)" ∧
    convert_citation cSmith "harvard" "mla" = Except.error PyErr.unboundLocal :=
  ⟨rfl, rfl⟩

/-- C3 amended: `convert_citation` never validates its style arguments: with a
known source style and an unknown target style it returns the citation text
unchanged, and with an unknown source style and target mla it raises the
unbound-local error of the unassigned extraction variables. -/
theorem convert_no_style_validation :
    ∀ (c : PyCitation) (ts fs : String),
      (ts ≠ "mla" → ts ≠ "apa" → ts ≠ "chicago" → 2 ≤ c.groups.length →
        convert_citation c "mla" ts = Except.ok c.text) ∧
      (fs ≠ "mla" → fs ≠ "apa" → fs ≠ "chicago" →
        convert_citation c fs "mla" = Except.error PyErr.unboundLocal) := by
  intro c ts fs
  constructor
  · intro h1 h2 h3 hlen
    obtain ⟨ctext, cty, csen, cgroups⟩ := c
    cases cgroups with
    | nil => simp at hlen
    | cons g0 tl =>
      cases tl with
      | nil => simp at hlen
      | cons g1 rest => simp [convert_citation, h1, h2, h3]
  · intro h1 h2 h3
    simp [convert_citation, h1, h2, h3]

/-- Witness for the C3 amended theorem at the concrete citation and the
unknown style string harvard. -/
theorem convert_no_style_validation_w :
    convert_citation cSmith "mla" "harvard" = Except.ok cSmith.text ∧
    convert_citation cSmith "harvard" "mla" = Except.error PyErr.unboundLocal :=
  ⟨(convert_no_style_validation cSmith "harvard" "harvard").1
      (by decide) (by decide) (by decide) (by decide),
   (convert_no_style_validation cSmith "harvard" "harvard").2
      (by decide) (by decide) (by decide)⟩
